import Mathlib

/-
Verification of the alarm broadcast system (alarm_server_gui.py and
client/alarm_client.py) against its specification.

Modelling conventions:
- Python strings are embedded as List Char; byte strings as List Nat
  (each element one byte value).
- CPython float arithmetic (used by the color helpers) is embedded
  exactly: every value is a nonnegative rational, and every operation
  rounds its exact result to the nearest IEEE binary64 value with ties
  to even, which is what the hardware does for the values occurring in
  this program (all of them normal, positive and far from overflow or
  underflow). Rationals are represented as unreduced numerator and
  denominator pairs of naturals so that every function evaluates inside
  the kernel.
- hashlib.sha256(...).hexdigest() is an external library function and is
  embedded as an explicit function parameter sha256hex; the claims about
  the credential store are conditional on the facts they assume about it
  (hex output, absence of collisions at the probed points).
- Network sockets, threads and the Tk event loop are not modelled; the
  loops that the claims speak about are embedded as pure step functions
  over the data each iteration consumes.
-/

set_option maxRecDepth 100000

namespace HospitalAlarm

/- ===== Exact model of nonnegative binary64 arithmetic ===== -/

/-- Unreduced nonnegative fraction: num over den. All CPython float
values appearing in the color code are nonnegative, so this suffices. -/
structure Frac where
  num : Nat
  den : Nat
  deriving DecidableEq, Repr

/-- Number of bits of a natural number, via structural fuel so that the
kernel can evaluate it. -/
def bitLenAux : Nat → Nat → Nat
  | 0, _ => 0
  | f+1, n => if n = 0 then 0 else bitLenAux f (n / 2) + 1

def bitLen (n : Nat) : Nat := bitLenAux n n

/-- Multiply a fraction by 2 to the power k (k may be negative). -/
def mulPow2 (q : Frac) (k : Int) : Frac :=
  if 0 ≤ k then ⟨q.num * 2 ^ k.toNat, q.den⟩ else ⟨q.num, q.den * 2 ^ (-k).toNat⟩

/-- Strict order on fractions by cross multiplication (no gcd needed). -/
def fracLt (a b : Frac) : Bool := a.num * b.den < b.num * a.den

def fracLe (a b : Frac) : Bool := a.num * b.den ≤ b.num * a.den

/-- Value equality of fractions by cross multiplication. -/
def fracEq (a b : Frac) : Bool := a.num * b.den = b.num * a.den

/-- Floor of a nonnegative fraction; this is also what the Python int()
conversion does to a nonnegative float. -/
def fracTrunc (q : Frac) : Nat := q.num / q.den

/-- Binary exponent e of a positive fraction q, with 2 ^ e ≤ q < 2 ^ (e+1). -/
def flExp (q : Frac) : Int :=
  let e0 : Int := (bitLen q.num : Int) - (bitLen q.den : Int)
  if fracLe (mulPow2 ⟨1, 1⟩ e0) q then e0 else e0 - 1

/-- Nearest integer with ties to even, for a nonnegative fraction. -/
def roundHalfEven (q : Frac) : Nat :=
  let f := q.num / q.den
  let r := q.num % q.den
  if 2 * r < q.den then f
  else if q.den < 2 * r then f + 1
  else if f % 2 = 0 then f else f + 1

/-- Round a nonnegative fraction to the nearest IEEE binary64 value
(53 bit significand, round to nearest, ties to even), assuming the
result is in the normal range, which holds for every value this
program computes. -/
def fl (q : Frac) : Frac :=
  if q.num = 0 then ⟨0, 1⟩
  else
    let e := flExp q
    let m := roundHalfEven (mulPow2 q (52 - e))
    mulPow2 ⟨m, 1⟩ (e - 52)

/-- CPython float multiplication of correctly rounded operands. -/
def fmul (x y : Frac) : Frac := fl ⟨x.num * y.num, x.den * y.den⟩

/-- CPython float addition of correctly rounded operands. -/
def fadd (x y : Frac) : Frac := fl ⟨x.num * y.den + y.num * x.den, x.den * y.den⟩

/-- CPython float division of correctly rounded operands. -/
def fdivF (x y : Frac) : Frac := fl ⟨x.num * y.den, x.den * y.num⟩

/-- CPython float subtraction (nonnegative result case). -/
def fsub (x y : Frac) : Frac := fl ⟨x.num * y.den - y.num * x.den, x.den * y.den⟩

/-- The double nearest to the source literal 0.299. -/
def c0299 : Frac := fl ⟨299, 1000⟩

/-- The double nearest to the source literal 0.587. -/
def c0587 : Frac := fl ⟨587, 1000⟩

/-- The double nearest to the source literal 0.114. -/
def c0114 : Frac := fl ⟨114, 1000⟩

/-- The double nearest to the source literal 0.3 (the darken factor). -/
def c03 : Frac := fl ⟨3, 10⟩

/-- Luminance as computed at alarm_server_gui.py line 879 and
alarm_client.py line 203: (0.299 * r + 0.587 * g + 0.114 * b) / 255 in
double arithmetic, left to right. -/
def luminance (r g b : Nat) : Frac :=
  fdivF (fadd (fadd (fmul c0299 ⟨r, 1⟩) (fmul c0587 ⟨g, 1⟩)) (fmul c0114 ⟨b, 1⟩)) ⟨255, 1⟩

/- ===== Hex color parsing (shared helper shape of the three color
functions) ===== -/

/-- Value of one hex digit, or none. -/
def hexDigitVal (c : Char) : Option Nat :=
  if '0' ≤ c ∧ c ≤ '9' then some (c.toNat - 48)
  else if 'a' ≤ c ∧ c ≤ 'f' then some (c.toNat - 87)
  else if 'A' ≤ c ∧ c ≤ 'F' then some (c.toNat - 55)
  else none

def pyIntHexAux : List Char → Nat → Option Nat
  | [], acc => some acc
  | c :: rest, acc =>
    match hexDigitVal c with
    | some d => pyIntHexAux rest (acc * 16 + d)
    | none => none

/-- Model of Python int(s, 16): fails on the empty string and on any
non hex digit character. (CPython additionally tolerates surrounding
whitespace, a sign, a 0x prefix and underscores; none of those shapes
occur in the color strings the claims quantify over.) -/
def pyIntHex : List Char → Option Nat
  | [] => none
  | c :: rest => pyIntHexAux (c :: rest) 0

/-- Python slice s[a:b] (for a ≤ b): clamps to the available length
instead of failing. -/
def pySlice (s : List Char) (a b : Nat) : List Char := (s.drop a).take (b - a)

/-- Python lstrip with a # argument: drop every leading # character. -/
def lstripHash (s : List Char) : List Char := s.dropWhile (fun c => c = '#')

/-- The shared parsing prelude of darken_color, get_contrast_color and
is_light_color: strip leading #, then r = int(s[0:2], 16),
g = int(s[2:4], 16), b = int(s[4:6], 16); any failure raises, which the
callers catch. -/
def parseRGB (s : List Char) : Option (Nat × Nat × Nat) :=
  let h := lstripHash s
  match pyIntHex (pySlice h 0 2), pyIntHex (pySlice h 2 4), pyIntHex (pySlice h 4 6) with
  | some r, some g, some b => some (r, g, b)
  | _, _, _ => none

/-- Lowercase hex digit of a value below 16. -/
def hexDigitChar (n : Nat) : Char :=
  if n < 10 then Char.ofNat (48 + n) else Char.ofNat (87 + n)

/-- Python format 02x of a byte value (all values formatted by
darken_color are at most 255). -/
def hex2 (n : Nat) : List Char := [hexDigitChar (n / 16 % 16), hexDigitChar (n % 16)]

/-- White literal returned by the color helpers. -/
def whiteHex : List Char := ['#', 'F', 'F', 'F', 'F', 'F', 'F']

/-- Black literal returned by the color helpers. -/
def blackHex : List Char := ['#', '0', '0', '0', '0', '0', '0']

/-- alarm_server_gui.py lines 846 to 865: darken a hex color by a factor;
each channel becomes max(0, int(channel * (1 - factor))) in double
arithmetic, and the result is formatted with 02x; on any parse failure
the literal default dark color is returned. -/
def darken_color (hex_color : List Char) (factor : Frac) : List Char :=
  match parseRGB hex_color with
  | some (r, g, b) =>
    let r2 := max 0 (fracTrunc (fmul ⟨r, 1⟩ (fsub ⟨1, 1⟩ factor)))
    let g2 := max 0 (fracTrunc (fmul ⟨g, 1⟩ (fsub ⟨1, 1⟩ factor)))
    let b2 := max 0 (fracTrunc (fmul ⟨b, 1⟩ (fsub ⟨1, 1⟩ factor)))
    '#' :: (hex2 r2 ++ hex2 g2 ++ hex2 b2)
  | none => ['#', '2', 'F', '4', 'F', '4', 'F']

/-- alarm_server_gui.py lines 867 to 884: white if the double luminance
is below 0.5, black otherwise; white on any parse failure. -/
def get_contrast_color (hex_color : List Char) : List Char :=
  match parseRGB hex_color with
  | some (r, g, b) => if fracLt (luminance r g b) ⟨1, 2⟩ then whiteHex else blackHex
  | none => whiteHex

/-- client/alarm_client.py lines 191 to 209: true if the double luminance
is above 0.5; false on any parse failure (default to dark). -/
def is_light_color (hex_color : List Char) : Bool :=
  match parseRGB hex_color with
  | some (r, g, b) => fracLt ⟨1, 2⟩ (luminance r g b)
  | none => false

/- ===== Broadcast dispatcher (alarm_server_gui.py lines 794 to 844) ===== -/

/-- Wire event dictionary built at alarm_server_gui.py lines 808 to 819. -/
structure AlarmEvent where
  type : List Char
  message : List Char
  timestamp : List Char
  server : List Char
  color : List Char
  bg_color : List Char
  text_color : List Char
  icon : List Char
  name : List Char
  admin : List Char
  deriving DecidableEq, Repr

/-- Construction of the alarm_data dictionary: bg_color darkens the base
color by 0.3, text_color is the contrast color of the base color, and
admin is current_admin when authenticated and the literal Unknown
otherwise. -/
def alarm_event_data (is_authenticated : Bool)
    (current_admin host message color icon name timestamp : List Char) : AlarmEvent :=
  { type := ['c', 'u', 's', 't', 'o', 'm']
    message := message
    timestamp := timestamp
    server := host
    color := color
    bg_color := darken_color color c03
    text_color := get_contrast_color color
    icon := icon
    name := name
    admin := if is_authenticated then current_admin
             else ['U', 'n', 'k', 'n', 'o', 'w', 'n'] }

/-- Single pass over the client list (lines 822 to 830): count each
successful send and append each failing client to the disconnected
list, without touching the registry during the pass. Clients are
identified by their registry id; sendOk tells whether the send to a
given client succeeds. -/
def broadcast_pass (clients : List Nat) (sendOk : Nat → Bool) : Nat × List Nat :=
  clients.foldl
    (fun acc c => if sendOk c then (acc.1 + 1, acc.2) else (acc.1, acc.2 ++ [c]))
    (0, [])

/-- Removal loop after the pass (lines 833 to 836): for each collected
client, remove its first occurrence from the registry if still present. -/
def remove_disconnected (clients disconnected : List Nat) : List Nat :=
  disconnected.foldl (fun cs c => if c ∈ cs then cs.erase c else cs) clients

/-- Whole dispatcher: refuses only when the server is not running or no
client is connected (lines 796 to 802); authentication is never checked
here. Returns the event, the success count, the collected failures and
the registry after cleanup. -/
def broadcast_alarm (running is_authenticated : Bool)
    (current_admin host message color icon name timestamp : List Char)
    (clients : List Nat) (sendOk : Nat → Bool) :
    Option (AlarmEvent × Nat × List Nat × List Nat) :=
  if running = false then none
  else if clients.isEmpty then none
  else
    let ev := alarm_event_data is_authenticated current_admin host message color icon name timestamp
    let sf := broadcast_pass clients sendOk
    some (ev, sf.1, sf.2, remove_disconnected clients sf.2)

/- ===== Credential store (alarm_server_gui.py lines 70 to 100) ===== -/

/-- Python split on a colon: every occurrence separates, empty pieces
are kept, and the empty string splits to one empty piece. -/
def splitOnColon : List Char → List (List Char)
  | [] => [[]]
  | c :: rest =>
    match splitOnColon rest with
    | [] => [[]]
    | g :: gs => if c = ':' then [] :: g :: gs else (c :: g) :: gs

/-- hash_password (lines 70 to 74) with the salt drawn by
secrets.token_hex(16) passed explicitly (randomness is external):
stores salt, a colon, then the hex digest of password concatenated with
the salt. -/
def hash_password (sha256hex : List Char → List Char)
    (salt password : List Char) : List Char :=
  salt ++ ':' :: sha256hex (password ++ salt)

/-- verify_password (lines 76 to 83): split the stored value on colons;
if that does not give exactly a salt and a hash, the tuple unpacking
raises and the bare except returns false; otherwise recompute and
compare. Total by construction, so it never raises. -/
def verify_password (sha256hex : List Char → List Char)
    (password stored_hash : List Char) : Bool :=
  match splitOnColon stored_hash with
  | [salt, password_hash] => sha256hex (password ++ salt) == password_hash
  | _ => false

/-- Lowercase hex digit test (the shape of secrets.token_hex output). -/
def isLowerHexDigit (c : Char) : Bool := c.isDigit || ('a' ≤ c && c ≤ 'f')

/- ===== Server startup (alarm_server_gui.py lines 42 to 64, 85 to 100) ===== -/

/-- Python str.strip on the ASCII whitespace characters. -/
def isPySpace (c : Char) : Bool :=
  c == ' ' || c == '\t' || c == '\n' || c == '\r' || c == '\x0b' || c == '\x0c'

def pyStrip (s : List Char) : List Char :=
  ((s.dropWhile isPySpace).reverse.dropWhile isPySpace).reverse

/-- Startup failures: the missing credential file, surfaced either as the
re-raised exception of load_admin_password or as the sys.exit(1) at
line 64. -/
inductive StartupError where
  | missingPasswordFile
  deriving DecidableEq, Repr

/-- State reached when __init__ completes: the loaded credential. -/
structure ServerInit where
  admin_password : List Char
  deriving DecidableEq, Repr

/-- load_admin_password (lines 85 to 100) over the credential file
content (none models a missing file): reads and strips the stored
credential, and raises when the file is absent instead of provisioning
a default. -/
def load_admin_password (password_file : Option (List Char)) :
    Except StartupError (List Char) :=
  match password_file with
  | some contents => Except.ok (pyStrip contents)
  | none => Except.error StartupError.missingPasswordFile

/-- The startup sequence of __init__ relevant to the credential: first
self.admin_password = self.load_admin_password() (line 46, raises on a
missing file), then the explicit existence check at lines 56 to 64 that
exits the process. Normal operation is entered only past both. -/
def server_init (password_file : Option (List Char)) :
    Except StartupError ServerInit :=
  match load_admin_password password_file with
  | Except.error e => Except.error e
  | Except.ok pw =>
    if password_file.isSome then Except.ok ⟨pw⟩
    else Except.error StartupError.missingPasswordFile

/- ===== Heartbeat (alarm_server_gui.py lines 778 to 792) ===== -/

/-- The literal byte string sent at line 783: b"ping". -/
def pingBytes : List Nat := [112, 105, 110, 103]

/-- The sleep between heartbeats at line 784, in seconds. -/
def heartbeatPeriod : Nat := 30

/-- The per session loop of handle_client, unrolled for a number of
iterations: each iteration writes the sentinel and sleeps the fixed
period. -/
def handle_client_sends (iterations : Nat) : List (List Nat) :=
  List.replicate iterations pingBytes

/- ===== Strict UTF-8 decoding (bytes.decode in the client loop) ===== -/

/-- Continuation byte test. -/
def utf8Cont (b : Nat) : Bool := 128 ≤ b && b ≤ 191

/-- Strict UTF-8 decoding exactly as bytes.decode does it: overlong
forms, surrogates, values past U+10FFFF and stray bytes all fail. Fuel
is consumed once per byte. -/
def utf8DecodeAux : Nat → List Nat → List Char → Option (List Char)
  | 0, bs, acc => if bs.isEmpty then some acc.reverse else none
  | _+1, [], acc => some acc.reverse
  | f+1, b :: rest, acc =>
    if b < 128 then utf8DecodeAux f rest (Char.ofNat b :: acc)
    else if 194 ≤ b && b ≤ 223 then
      match rest with
      | b2 :: r2 =>
        if utf8Cont b2 then
          utf8DecodeAux f r2 (Char.ofNat ((b - 192) * 64 + (b2 - 128)) :: acc)
        else none
      | [] => none
    else if 224 ≤ b && b ≤ 239 then
      match rest with
      | b2 :: b3 :: r3 =>
        let okB2 : Bool :=
          if b = 224 then 160 ≤ b2 && b2 ≤ 191
          else if b = 237 then 128 ≤ b2 && b2 ≤ 159
          else utf8Cont b2
        if okB2 && utf8Cont b3 then
          utf8DecodeAux f r3
            (Char.ofNat ((b - 224) * 4096 + (b2 - 128) * 64 + (b3 - 128)) :: acc)
        else none
      | _ => none
    else if 240 ≤ b && b ≤ 244 then
      match rest with
      | b2 :: b3 :: b4 :: r4 =>
        let okB2 : Bool :=
          if b = 240 then 144 ≤ b2 && b2 ≤ 191
          else if b = 244 then 128 ≤ b2 && b2 ≤ 143
          else utf8Cont b2
        if okB2 && utf8Cont b3 && utf8Cont b4 then
          utf8DecodeAux f r4
            (Char.ofNat ((b - 240) * 262144 + (b2 - 128) * 4096 +
              (b3 - 128) * 64 + (b4 - 128)) :: acc)
        else none
      | _ => none
    else none

def utf8Decode (bs : List Nat) : Option (List Char) :=
  utf8DecodeAux bs.length bs []

/- ===== json.loads validity (the decode step of the client loop) ===== -/

/-- JSON whitespace accepted by json.loads. -/
def jsonWs (c : Char) : Bool := c == ' ' || c == '\t' || c == '\n' || c == '\r'

def skipWs (s : List Char) : List Char := s.dropWhile jsonWs

/-- Rest of a JSON string after the opening quote; strict mode: raw
control characters below 0x20 are rejected, escapes are the eight
simple ones plus a u escape with four hex digits. -/
def jsonStringRest : Nat → List Char → Option (List Char)
  | 0, _ => none
  | _+1, [] => none
  | f+1, c :: rest =>
    if c = '"' then some rest
    else if c = '\\' then
      match rest with
      | [] => none
      | e :: r2 =>
        if e = 'u' then
          match r2 with
          | h1 :: h2 :: h3 :: h4 :: r3 =>
            if (hexDigitVal h1).isSome && (hexDigitVal h2).isSome &&
               (hexDigitVal h3).isSome && (hexDigitVal h4).isSome then
              jsonStringRest f r3
            else none
          | _ => none
        else if e = '"' ∨ e = '\\' ∨ e = '/' ∨ e = 'b' ∨ e = 'f' ∨
                e = 'n' ∨ e = 'r' ∨ e = 't' then jsonStringRest f r2
        else none
    else if c.toNat < 32 then none
    else jsonStringRest f rest

/-- Consume one or more decimal digits. -/
def jsonDigits (s : List Char) : Option (List Char) :=
  if (s.takeWhile Char.isDigit).isEmpty then none
  else some (s.dropWhile Char.isDigit)

/-- Optional fraction part: a dot must be followed by digits. -/
def jsonFrac : List Char → Option (List Char)
  | '.' :: r => jsonDigits r
  | s => some s

/-- Optional exponent part. -/
def jsonExp : List Char → Option (List Char)
  | [] => some []
  | c :: r =>
    if c = 'e' ∨ c = 'E' then
      match r with
      | [] => none
      | s :: r2 => if s = '+' ∨ s = '-' then jsonDigits r2 else jsonDigits (s :: r2)
    else some (c :: r)

/-- JSON number after an optional minus sign: 0, or a nonzero digit
followed by digits, then optional fraction and exponent. -/
def jsonNumber (s : List Char) : Option (List Char) :=
  let s1 := match s with
            | '-' :: r => r
            | r => r
  match s1 with
  | '0' :: rest =>
    match jsonFrac rest with
    | some r2 => jsonExp r2
    | none => none
  | c :: rest =>
    if c.isDigit then
      match jsonFrac (rest.dropWhile Char.isDigit) with
      | some r2 => jsonExp r2
      | none => none
    else none
  | [] => none

/-- Exact literal such as true, false, null, NaN, Infinity. -/
def jsonLit (lit s : List Char) : Option (List Char) :=
  if lit.isPrefixOf s then some (s.drop lit.length) else none

mutual

/-- One JSON value starting at the input (after which some rest remains);
mirrors the grammar json.loads accepts, including the default NaN and
Infinity extensions. Fuel decreases at each nesting step. -/
def jsonValueAux : Nat → List Char → Option (List Char)
  | 0, _ => none
  | f+1, s =>
    match skipWs s with
    | [] => none
    | c :: rest =>
      if c = '"' then jsonStringRest (rest.length + 1) rest
      else if c = '\x7b' then jsonObjectRest f rest
      else if c = '[' then jsonArrayRest f rest
      else if c = 't' then jsonLit ['r', 'u', 'e'] rest
      else if c = 'f' then jsonLit ['a', 'l', 's', 'e'] rest
      else if c = 'n' then jsonLit ['u', 'l', 'l'] rest
      else if c = 'N' then jsonLit ['a', 'N'] rest
      else if c = 'I' then jsonLit ['n', 'f', 'i', 'n', 'i', 't', 'y'] rest
      else if c = '-' then
        match rest with
        | 'I' :: r2 => jsonLit ['n', 'f', 'i', 'n', 'i', 't', 'y'] r2
        | _ => jsonNumber (c :: rest)
      else if c.isDigit then jsonNumber (c :: rest)
      else none

/-- Rest of an object after the opening brace. -/
def jsonObjectRest : Nat → List Char → Option (List Char)
  | 0, _ => none
  | f+1, s =>
    match skipWs s with
    | '\x7d' :: rest => some rest
    | s2 => jsonMembers f s2

/-- One or more key value pairs then the closing brace. -/
def jsonMembers : Nat → List Char → Option (List Char)
  | 0, _ => none
  | f+1, s =>
    match skipWs s with
    | '"' :: rest =>
      match jsonStringRest (rest.length + 1) rest with
      | none => none
      | some afterKey =>
        match skipWs afterKey with
        | ':' :: afterColon =>
          match jsonValueAux f afterColon with
          | none => none
          | some afterVal =>
            match skipWs afterVal with
            | ',' :: more => jsonMembers f more
            | '\x7d' :: rest2 => some rest2
            | _ => none
        | _ => none
    | _ => none

/-- Rest of an array after the opening bracket. -/
def jsonArrayRest : Nat → List Char → Option (List Char)
  | 0, _ => none
  | f+1, s =>
    match skipWs s with
    | ']' :: rest => some rest
    | s2 => jsonItems f s2

/-- One or more values then the closing bracket. -/
def jsonItems : Nat → List Char → Option (List Char)
  | 0, _ => none
  | f+1, s =>
    match jsonValueAux f s with
    | none => none
    | some afterVal =>
      match skipWs afterVal with
      | ',' :: more => jsonItems f more
      | ']' :: rest => some rest
      | _ => none

end

/-- Whether json.loads accepts the whole text. -/
def json_loads_ok (s : List Char) : Bool :=
  match jsonValueAux (3 * s.length + 3) s with
  | some rest => (skipWs rest).isEmpty
  | none => false

/- ===== Client read loop (client/alarm_client.py lines 220 to 250) ===== -/

/-- What one iteration of the read loop consumes: a received byte
payload, a socket timeout, or another socket exception. -/
inductive SocketEvent where
  | recv (data : List Nat)
  | timeout
  | sockError
  deriving DecidableEq, Repr

/-- Client loop state: the running flag, the connection status shown to
the user, the JSON texts handed to handle_alarm, and how many invalid
data log lines were written. -/
structure ListenState where
  running : Bool
  connected : Bool
  delivered : List (List Char)
  invalidLogs : Nat
  deriving DecidableEq, Repr

/-- One iteration of listen_for_alarms. An empty read disconnects; the
sentinel is discarded before any parsing; a payload that decodes as
UTF-8 but is rejected by json.loads only logs (the inner except catches
json.JSONDecodeError); a payload that is not UTF-8 raises
UnicodeDecodeError, which the inner except does not catch, so the outer
generic except disconnects; a timeout continues the loop. -/
def listen_step (st : ListenState) (ev : SocketEvent) : ListenState :=
  if st.running = false then st
  else
    match ev with
    | SocketEvent.timeout => st
    | SocketEvent.sockError => { st with running := false, connected := false }
    | SocketEvent.recv data =>
      if data.isEmpty then { st with running := false, connected := false }
      else if data = pingBytes then st
      else
        match utf8Decode data with
        | some text =>
          if json_loads_ok text then { st with delivered := st.delivered ++ [text] }
          else { st with invalidLogs := st.invalidLogs + 1 }
        | none => { st with running := false, connected := false }

/-- The loop over a whole sequence of socket events. -/
def listen_run (st : ListenState) (evs : List SocketEvent) : ListenState :=
  evs.foldl listen_step st

/- ===== Client display of a received alarm
(client/alarm_client.py lines 252 to 274) ===== -/

/-- Default bg_color used by alarm_data.get when the field is absent. -/
def defaultBgColor : List Char := ['#', '8', 'B', '0', '0', '0', '0']

/-- The text color handle_alarm actually displays: it reads text_color
from the event but then unconditionally overwrites it from
is_light_color of bg_color. -/
def handle_alarm_text_color (bg_color_field text_color_field : Option (List Char)) :
    List Char :=
  let bg_color := bg_color_field.getD defaultBgColor
  let text_color := text_color_field.getD whiteHex
  if is_light_color bg_color then blackHex else whiteHex

/-- Well formed color strings: only the # marker and hex digits. On this
domain the narrowed int(s, 16) model agrees with CPython exactly. -/
def hexish (s : List Char) : Bool := s.all (fun c => c = '#' || (hexDigitVal c).isSome)

/- ===================== Claims ===================== -/

/-- C3: if the credential file does not exist at startup, the server
refuses to start and never provisions a default credential; it enters
normal operation exactly when a stored credential was loaded from the
file (the loaded value is the stripped file content). -/
theorem C3_fail_closed_startup :
    server_init none = Except.error StartupError.missingPasswordFile ∧
    (∀ contents, server_init (some contents) = Except.ok ⟨pyStrip contents⟩) ∧
    (∀ file r, server_init file = Except.ok r →
      ∃ contents, file = some contents ∧ r.admin_password = pyStrip contents) := by
  refine ⟨rfl, fun contents => rfl, fun file r h => ?_⟩
  cases file with
  | none => simp [server_init, load_admin_password] at h
  | some c =>
    refine ⟨c, rfl, ?_⟩
    simp [server_init, load_admin_password] at h
    rw [← h]

/-- Witness for C3 at a concrete credential file. -/
theorem C3_fail_closed_startup_witness :
    ∃ contents, (some ['p', 'w'] : Option (List Char)) = some contents ∧
      (ServerInit.mk (pyStrip ['p', 'w'])).admin_password = pyStrip contents :=
  C3_fail_closed_startup.2.2 (some ['p', 'w']) ⟨pyStrip ['p', 'w']⟩ rfl

/-- C9: for every candidate password and every stored credential that
does not split into exactly a salt and a hash on colons, verify_password
returns false (the tuple unpacking raises and the bare except returns
false; the embedding is a total function, so no exception escapes). -/
theorem C9_verify_malformed (sha256hex : List Char → List Char)
    (password stored : List Char)
    (hmal : (splitOnColon stored).length ≠ 2) :
    verify_password sha256hex password stored = false := by
  unfold verify_password
  rcases hsplit : splitOnColon stored with _ | ⟨s1, _ | ⟨s2, _ | ⟨s3, t⟩⟩⟩
  · rfl
  · rfl
  · rw [hsplit] at hmal; simp at hmal
  · rfl

/-- Witness for C9 on a stored value with no colon at all. -/
theorem C9_verify_malformed_witness :
    (splitOnColon ['a', 'b']).length ≠ 2 ∧
    verify_password (fun x => x) ['p'] ['a', 'b'] = false :=
  ⟨by decide, C9_verify_malformed (fun x => x) ['p'] ['a', 'b'] (by decide)⟩

/-- C4 as stated is false at the sentinel itself: b"ping" is 4 ASCII
bytes, not 3. -/
theorem C4_counterexample : ¬ (pingBytes.length = 3) := by decide

/-- C4 (amended): every payload the per session heartbeat loop writes is
the literal unframed byte sequence b"ping", which is 4 ASCII bytes,
decodes to the text ping, is never valid JSON, and is sent on a fixed
30 second period. -/
theorem C4_heartbeat (n : Nat) (m : List Nat) (hm : m ∈ handle_client_sends n) :
    m = pingBytes ∧ pingBytes = [112, 105, 110, 103] ∧ pingBytes.length = 4 ∧
    utf8Decode pingBytes = some ['p', 'i', 'n', 'g'] ∧
    json_loads_ok ['p', 'i', 'n', 'g'] = false ∧
    heartbeatPeriod = 30 := by
  refine ⟨List.eq_of_mem_replicate hm, by decide, by decide, by decide, by decide, rfl⟩

/-- Witness for C4 at a two iteration unrolling. -/
theorem C4_heartbeat_witness :
    pingBytes ∈ handle_client_sends 2 ∧ pingBytes = [112, 105, 110, 103] :=
  ⟨by decide, (C4_heartbeat 2 pingBytes (by decide)).2.1⟩

/-- C7 as stated is false on the sentinel spelling: an unauthenticated
trigger stamps the event with Unknown (capital U), not unknown. -/
theorem C7_counterexample :
    (alarm_event_data false ['b', 'o', 'b'] ['h'] ['m']
        ['#', 'f', 'f', '0', '0', '0', '0'] ['i'] ['n'] ['t']).admin
      = ['U', 'n', 'k', 'n', 'o', 'w', 'n'] ∧
    (['U', 'n', 'k', 'n', 'o', 'w', 'n'] : List Char)
      ≠ ['u', 'n', 'k', 'n', 'o', 'w', 'n'] := by
  exact ⟨rfl, by decide⟩

/-- C7 (amended): the admin field of every broadcast event equals the
authenticated operator identity when authenticated at dispatch time and
the sentinel Unknown otherwise, and the dispatcher itself never refuses
to broadcast for an unauthenticated trigger (it refuses only when the
server is stopped or no client is connected). -/
theorem C7_origin_admin (is_authenticated running : Bool)
    (current_admin host message color icon name timestamp : List Char)
    (clients : List Nat) (sendOk : Nat → Bool)
    (hrun : running = true) (hcl : clients ≠ []) :
    ((alarm_event_data is_authenticated current_admin host message color icon name timestamp).admin
      = if is_authenticated then current_admin else ['U', 'n', 'k', 'n', 'o', 'w', 'n']) ∧
    (is_authenticated = true →
      (alarm_event_data is_authenticated current_admin host message color icon name timestamp).admin
        = current_admin) ∧
    (is_authenticated = false →
      (alarm_event_data is_authenticated current_admin host message color icon name timestamp).admin
        = ['U', 'n', 'k', 'n', 'o', 'w', 'n']) ∧
    (broadcast_alarm running is_authenticated current_admin host message color
        icon name timestamp clients sendOk).isSome = true := by
  subst hrun
  refine ⟨rfl, fun ha => by simp [alarm_event_data, ha],
    fun ha => by simp [alarm_event_data, ha], ?_⟩
  cases clients with
  | nil => exact absurd rfl hcl
  | cons a t => simp [broadcast_alarm]

/-- Witness for C7 at a concrete unauthenticated dispatch. -/
theorem C7_origin_admin_witness :
    (true = true ∧ ([1, 2] : List Nat) ≠ []) ∧
    (broadcast_alarm true false ['b', 'o', 'b'] ['h'] ['m']
      ['#', 'f', 'f', '0', '0', '0', '0'] ['i'] ['n'] ['t'] [1, 2]
      (fun _ => true)).isSome = true :=
  ⟨⟨rfl, by decide⟩,
    (C7_origin_admin false true ['b', 'o', 'b'] ['h'] ['m']
      ['#', 'f', 'f', '0', '0', '0', '0'] ['i'] ['n'] ['t'] [1, 2]
      (fun _ => true) rfl (by decide)).2.2.2⟩

/-- Splitting a colon free string gives the string back as one piece. -/
theorem splitOnColon_no_colon (s : List Char) (h : ':' ∉ s) :
    splitOnColon s = [s] := by
  induction s with
  | nil => rfl
  | cons c rest ih =>
    rw [List.mem_cons, not_or] at h
    obtain ⟨h1, h2⟩ := h
    have hc : ¬ (c = ':') := fun he => h1 he.symm
    simp [splitOnColon, ih h2, hc]

/-- Splitting salt colon hash gives the two pieces back when neither
contains a colon. -/
theorem splitOnColon_salt_hash (salt hsh : List Char)
    (hs : ':' ∉ salt) (hh : ':' ∉ hsh) :
    splitOnColon (salt ++ ':' :: hsh) = [salt, hsh] := by
  induction salt with
  | nil => simp [splitOnColon, splitOnColon_no_colon hsh hh]
  | cons c rest ih =>
    rw [List.mem_cons, not_or] at hs
    obtain ⟨h1, h2⟩ := hs
    have hc : ¬ (c = ':') := fun he => h1 he.symm
    simp [splitOnColon, ih h2, hc]

/-- C2: for every password, verifying against its own fresh hash
succeeds, and verifying a different password fails unless the digests
collide. The salt is the one secrets.token_hex(16) drew (32 lowercase
hex characters, hence colon free) and the digest function is hex valued
(colon free output at the probed point). -/
theorem C2_hash_verify_roundtrip (sha256hex : List Char → List Char)
    (salt password wrong : List Char)
    (hlen : salt.length = 32)
    (hhex : ∀ c ∈ salt, isLowerHexDigit c = true)
    (hdigest : ':' ∉ sha256hex (password ++ salt)) :
    verify_password sha256hex password (hash_password sha256hex salt password) = true ∧
    (sha256hex (wrong ++ salt) ≠ sha256hex (password ++ salt) →
      verify_password sha256hex wrong (hash_password sha256hex salt password) = false) := by
  have hsalt : ':' ∉ salt := fun hmem => absurd (hhex ':' hmem) (by decide)
  unfold hash_password verify_password
  rw [splitOnColon_salt_hash salt _ hsalt hdigest]
  refine ⟨by simp, fun hne => by simp [hne]⟩

/-- Witness for C2 with a concrete salt and an injective stand in for
the digest function. -/
theorem C2_hash_verify_roundtrip_witness :
    ((List.replicate 32 'a').length = 32 ∧
      (∀ c ∈ List.replicate 32 'a', isLowerHexDigit c = true) ∧
      ':' ∉ (fun (x : List Char) => x) (['p'] ++ List.replicate 32 'a')) ∧
    verify_password (fun x => x) ['p']
      (hash_password (fun x => x) (List.replicate 32 'a') ['p']) = true :=
  ⟨⟨by decide, by decide, by decide⟩,
    (C2_hash_verify_roundtrip (fun x => x) (List.replicate 32 'a') ['p'] ['q']
      (by decide) (by decide) (by decide)).1⟩

/-- C6 as stated is false at the input 00cc44: its exact luminance is
exactly one half, so the claimed rule requires #000000, but the code
computes in doubles, falls below one half, and returns #FFFFFF. -/
theorem C6_counterexample :
    parseRGB ['#', '0', '0', 'c', 'c', '4', '4'] = some (0, 204, 68) ∧
    get_contrast_color ['#', '0', '0', 'c', 'c', '4', '4'] = whiteHex ∧
    ¬ ((0.299 * (0 : ℚ) + 0.587 * 204 + 0.114 * 68) / 255 < 1 / 2) := by
  refine ⟨by decide, by decide, by norm_num⟩

/-- C6 (amended): for every parseable hex RGB input, get_contrast_color
returns #FFFFFF exactly when the luminance computed in double precision
arithmetic is below 0.5 and #000000 otherwise (at inputs whose exact
luminance is exactly one half, the double rounding decides the side);
in particular black yields white and white yields black. -/
theorem C6_contrast_rule (s : List Char) (r g b : Nat)
    (hparse : parseRGB s = some (r, g, b)) :
    (get_contrast_color s = whiteHex ↔ fracLt (luminance r g b) ⟨1, 2⟩ = true) ∧
    (get_contrast_color s = blackHex ↔ fracLt (luminance r g b) ⟨1, 2⟩ = false) ∧
    get_contrast_color blackHex = whiteHex ∧
    get_contrast_color whiteHex = blackHex := by
  refine ⟨?_, ?_, by decide, by decide⟩ <;>
    (unfold get_contrast_color; rw [hparse];
     cases h : fracLt (luminance r g b) ⟨1, 2⟩ <;> simp [h, whiteHex, blackHex])

/-- Witness for C6 at the concrete light gray input. -/
theorem C6_contrast_rule_witness :
    parseRGB ['#', '8', '0', '8', '0', '8', '0'] = some (128, 128, 128) ∧
    get_contrast_color blackHex = whiteHex :=
  ⟨by decide,
    (C6_contrast_rule ['#', '8', '0', '8', '0', '8', '0'] 128 128 128 (by decide)).2.2.1⟩

/-- C5 as stated is false at base color 808080: the code chooses
text_color by contrast against the BASE color, not against the darkened
bg_color, and the two choices disagree there; moreover a channel value
of 90 darkens to 62 in double arithmetic although exact scaling by 0.7
gives 63 exactly. -/
theorem C5_counterexample :
    ((alarm_event_data true ['a'] ['h'] ['m']
        ['#', '8', '0', '8', '0', '8', '0'] ['i'] ['n'] ['t']).text_color
      ≠ get_contrast_color
        (alarm_event_data true ['a'] ['h'] ['m']
          ['#', '8', '0', '8', '0', '8', '0'] ['i'] ['n'] ['t']).bg_color) ∧
    darken_color ['#', '5', 'a', '5', 'a', '5', 'a'] c03
      = ['#', '3', 'e', '3', 'e', '3', 'e'] ∧
    (90 : ℚ) * (7 / 10) = 63 := by
  refine ⟨by decide, by decide, by norm_num⟩

/-- C5 (amended): every broadcast event carries bg_color equal to the
base color darkened with factor 0.3 in double arithmetic (each channel
multiplied by the double 0.7 and truncated) and text_color equal to the
contrast color of the BASE color, chosen by the double luminance rule. -/
theorem C5_event_colors (is_authenticated : Bool)
    (current_admin host message color icon name timestamp : List Char)
    (r g b : Nat) (hparse : parseRGB color = some (r, g, b)) :
    (alarm_event_data is_authenticated current_admin host message color icon name timestamp).bg_color
      = darken_color color c03 ∧
    (alarm_event_data is_authenticated current_admin host message color icon name timestamp).text_color
      = get_contrast_color color ∧
    darken_color color c03
      = '#' :: (hex2 (fracTrunc (fmul ⟨r, 1⟩ (fsub ⟨1, 1⟩ c03)))
          ++ hex2 (fracTrunc (fmul ⟨g, 1⟩ (fsub ⟨1, 1⟩ c03)))
          ++ hex2 (fracTrunc (fmul ⟨b, 1⟩ (fsub ⟨1, 1⟩ c03)))) ∧
    (get_contrast_color color = whiteHex ↔ fracLt (luminance r g b) ⟨1, 2⟩ = true) := by
  refine ⟨rfl, rfl, ?_, ?_⟩
  · unfold darken_color
    rw [hparse]
    simp
  · unfold get_contrast_color
    rw [hparse]
    cases h : fracLt (luminance r g b) ⟨1, 2⟩ <;> simp [h, whiteHex, blackHex]

/-- Witness for C5 at the default alarm color e74c3c. -/
theorem C5_event_colors_witness :
    parseRGB ['#', 'e', '7', '4', 'c', '3', 'c'] = some (231, 76, 60) ∧
    (alarm_event_data true ['a'] ['h'] ['m']
        ['#', 'e', '7', '4', 'c', '3', 'c'] ['i'] ['n'] ['t']).bg_color
      = darken_color ['#', 'e', '7', '4', 'c', '3', 'c'] c03 :=
  ⟨by decide,
    (C5_event_colors true ['a'] ['h'] ['m'] ['#', 'e', '7', '4', 'c', '3', 'c']
      ['i'] ['n'] ['t'] 231 76 60 (by decide)).1⟩

/-- C10 as stated is false at bg_color da3af8: its exact luminance is
exactly one half, which does not exceed one half, so the claimed rule
requires white text, but the double computation exceeds one half and
the client displays black. -/
theorem C10_counterexample :
    parseRGB ['#', 'd', 'a', '3', 'a', 'f', '8'] = some (218, 58, 248) ∧
    handle_alarm_text_color (some ['#', 'd', 'a', '3', 'a', 'f', '8']) (some whiteHex)
      = blackHex ∧
    ¬ (1 / 2 < (0.299 * (218 : ℚ) + 0.587 * 58 + 0.114 * 248) / 255) := by
  refine ⟨by decide, by decide, by norm_num⟩

/-- C10 (amended): the client discards the text_color received on the
wire and recomputes the displayed color solely from bg_color: black
exactly when the luminance of bg_color computed in double precision
exceeds 0.5, white otherwise, with an unparsable or absent bg_color
counting as dark (white text). -/
theorem C10_client_text_color (bg tc1 tc2 : Option (List Char))
    (s : List Char) (r g b : Nat) :
    handle_alarm_text_color bg tc1 = handle_alarm_text_color bg tc2 ∧
    (parseRGB s = some (r, g, b) →
      (handle_alarm_text_color (some s) tc1 = blackHex
        ↔ fracLt ⟨1, 2⟩ (luminance r g b) = true) ∧
      (handle_alarm_text_color (some s) tc1 = whiteHex
        ↔ fracLt ⟨1, 2⟩ (luminance r g b) = false)) ∧
    (hexish s = true → parseRGB s = none →
      handle_alarm_text_color (some s) tc1 = whiteHex) ∧
    handle_alarm_text_color none tc1 = whiteHex := by
  have hdefault : is_light_color defaultBgColor = false := by decide
  refine ⟨?_, fun hparse => ?_, fun _ hnone => ?_, ?_⟩
  · unfold handle_alarm_text_color
    rfl
  · simp only [handle_alarm_text_color, is_light_color, Option.getD_some, hparse]
    cases h : fracLt ⟨1, 2⟩ (luminance r g b) <;> simp [h, whiteHex, blackHex]
  · simp only [handle_alarm_text_color, is_light_color, Option.getD_some, hnone]
    simp
  · simp [handle_alarm_text_color, hdefault]

/-- Witness for C10 at a light bg_color and a dark wire text_color. -/
theorem C10_client_text_color_witness :
    parseRGB ['#', '8', '0', '8', '0', '8', '0'] = some (128, 128, 128) ∧
    (handle_alarm_text_color (some ['#', '8', '0', '8', '0', '8', '0']) (some whiteHex)
        = blackHex ↔ fracLt ⟨1, 2⟩ (luminance 128 128 128) = true) :=
  ⟨by decide,
    ((C10_client_text_color (some ['#', '8', '0', '8', '0', '8', '0'])
      (some whiteHex) (some blackHex) ['#', '8', '0', '8', '0', '8', '0']
      128 128 128).2.1 (by decide)).1⟩

/-- C8 as stated is false: a payload of the single byte 255 is not the
heartbeat sentinel and fails to decode, yet the read loop disconnects,
because bytes.decode raises UnicodeDecodeError, which the inner except
clause (json.JSONDecodeError only) does not catch, so the outer generic
except tears the session down. -/
theorem C8_counterexample :
    ([255] : List Nat) ≠ [] ∧ ([255] : List Nat) ≠ pingBytes ∧
    utf8Decode [255] = none ∧
    (listen_step ⟨true, true, [], 0⟩ (SocketEvent.recv [255])).running = false ∧
    (listen_step ⟨true, true, [], 0⟩ (SocketEvent.recv [255])).connected = false := by
  refine ⟨by decide, by decide, by decide, by decide, by decide⟩

/-- C8 (amended): in the running client read loop, the sentinel is
discarded and the loop continues; a non sentinel payload that decodes
as UTF-8 text but is rejected by json.loads is logged and the loop
continues without disconnecting, so a following well formed event is
still delivered; a payload that is not valid UTF-8 disconnects through
the generic exception path; a zero byte read disconnects; a receive
timeout continues the loop. -/
theorem C8_read_loop (st : ListenState) (hrun : st.running = true)
    (d good bad : List Nat) (text goodText : List Char)
    (hd0 : d ≠ []) (hdp : d ≠ pingBytes)
    (hdec : utf8Decode d = some text) (hbad : json_loads_ok text = false)
    (hg0 : good ≠ []) (hgp : good ≠ pingBytes)
    (hgdec : utf8Decode good = some goodText) (hgok : json_loads_ok goodText = true)
    (hb0 : bad ≠ []) (hbp : bad ≠ pingBytes) (hbdec : utf8Decode bad = none) :
    listen_step st (SocketEvent.recv pingBytes) = st ∧
    listen_step st SocketEvent.timeout = st ∧
    listen_step st (SocketEvent.recv d)
      = { st with invalidLogs := st.invalidLogs + 1 } ∧
    listen_run st [SocketEvent.recv d, SocketEvent.recv good]
      = { st with invalidLogs := st.invalidLogs + 1,
                  delivered := st.delivered ++ [goodText] } ∧
    (listen_step st (SocketEvent.recv bad)).running = false ∧
    (listen_step st (SocketEvent.recv [])).running = false ∧
    (listen_step st (SocketEvent.recv [])).connected = false := by
  obtain ⟨runb, conn, del, logs⟩ := st
  simp only at hrun
  subst hrun
  have hde : d.isEmpty = false := by
    cases d with
    | nil => exact absurd rfl hd0
    | cons a t => rfl
  have hge : good.isEmpty = false := by
    cases good with
    | nil => exact absurd rfl hg0
    | cons a t => rfl
  have hbe : bad.isEmpty = false := by
    cases bad with
    | nil => exact absurd rfl hb0
    | cons a t => rfl
  refine ⟨?_, rfl, ?_, ?_, ?_, rfl, rfl⟩
  · simp [listen_step, pingBytes]
  · simp [listen_step, hde, hdp, hdec, hbad]
  · simp [listen_run, listen_step, hde, hdp, hdec, hbad, hge, hgp, hgdec, hgok]
  · simp [listen_step, hbe, hbp, hbdec]

/-- Witness for C8 with concrete payloads: the letter p (valid text,
invalid JSON), the empty JSON object, and the lone byte 255. -/
theorem C8_read_loop_witness :
    listen_run ⟨true, true, [], 0⟩
        [SocketEvent.recv [112], SocketEvent.recv [123, 125]]
      = ⟨true, true, [[Char.ofNat 123, Char.ofNat 125]], 1⟩ :=
  ((C8_read_loop ⟨true, true, [], 0⟩ rfl [112] [123, 125] [255]
    ['p'] [Char.ofNat 123, Char.ofNat 125]
    (by decide) (by decide) (by decide) (by decide)
    (by decide) (by decide) (by decide) (by decide)
    (by decide) (by decide) (by decide)).2.2.2.1)

/-- The counting pass of the dispatcher: successes are the clients whose
send succeeds, failures are collected in order. -/
theorem broadcast_pass_spec (clients : List Nat) (sendOk : Nat → Bool) :
    broadcast_pass clients sendOk
      = ((clients.filter sendOk).length, clients.filter (fun c => !(sendOk c))) := by
  have go : ∀ (l : List Nat) (n : Nat) (acc : List Nat),
      l.foldl (fun acc c => if sendOk c then (acc.1 + 1, acc.2) else (acc.1, acc.2 ++ [c]))
          (n, acc)
        = (n + (l.filter sendOk).length, acc ++ l.filter (fun c => !(sendOk c))) := by
    intro l
    induction l with
    | nil => intro n acc; simp
    | cons c rest ih =>
      intro n acc
      cases h : sendOk c with
      | true =>
        rw [List.foldl_cons]
        have hif : (if sendOk c = true then (n + 1, acc) else (n, acc ++ [c]))
            = (n + 1, acc) := by rw [h]; simp
        rw [hif, ih, Prod.mk.injEq]
        refine ⟨?_, ?_⟩
        · simp [List.filter_cons, h]
          omega
        · simp [List.filter_cons, h]
      | false =>
        rw [List.foldl_cons]
        have hif : (if sendOk c = true then (n + 1, acc) else (n, acc ++ [c]))
            = (n, acc ++ [c]) := by rw [h]; simp
        rw [hif, ih, Prod.mk.injEq]
        refine ⟨?_, ?_⟩
        · simp [List.filter_cons, h]
        · simp [List.filter_cons, h]
  unfold broadcast_pass
  simpa using go clients 0 []

/-- The cleanup loop is list difference: the membership test before each
erase is redundant because erasing an absent element is the identity. -/
theorem remove_disconnected_eq_diff (disconnected : List Nat) :
    ∀ clients, remove_disconnected clients disconnected = clients.diff disconnected := by
  induction disconnected with
  | nil => intro clients; rfl
  | cons d rest ih =>
    intro clients
    have hstep : (if d ∈ clients then clients.erase d else clients) = clients.erase d := by
      by_cases h : d ∈ clients
      · rw [if_pos h]
      · rw [if_neg h, List.erase_of_not_mem h]
    unfold remove_disconnected
    rw [List.foldl_cons]
    simp only [hstep]
    rw [List.diff_cons]
    exact ih (clients.erase d)

/-- C1: for every broadcast over a registry of distinct sessions, the
pass counts exactly the successful writes (N when all succeed, N minus K
when K fail), collects exactly the K failing sessions during the pass,
and only after the pass does the cleanup remove them, leaving a registry
that contains the successful sessions and none of the failed ones. -/
theorem C1_broadcast_accounting (clients : List Nat) (sendOk : Nat → Bool)
    (sent : Nat) (failed : List Nat)
    (hnodup : clients.Nodup)
    (hpass : broadcast_pass clients sendOk = (sent, failed)) :
    sent = (clients.filter sendOk).length ∧
    failed = clients.filter (fun c => !(sendOk c)) ∧
    sent + failed.length = clients.length ∧
    ((∀ c ∈ clients, sendOk c = true) → sent = clients.length ∧ failed = []) ∧
    remove_disconnected clients failed = clients.filter sendOk ∧
    (∀ c ∈ failed, c ∉ remove_disconnected clients failed) := by
  rw [broadcast_pass_spec] at hpass
  injection hpass with hs hf
  subst hs
  subst hf
  have hlen : ∀ l : List Nat,
      (l.filter sendOk).length + (l.filter (fun c => !(sendOk c))).length = l.length := by
    intro l
    induction l with
    | nil => rfl
    | cons c rest ih =>
      cases h : sendOk c <;> simp [List.filter_cons, h] <;> omega
  have hremove : remove_disconnected clients (clients.filter (fun c => !(sendOk c)))
      = clients.filter sendOk := by
    rw [remove_disconnected_eq_diff, hnodup.diff_eq_filter]
    refine List.filter_congr ?_
    intro a ha
    cases h : sendOk a with
    | true =>
      simp [List.mem_filter, h]
    | false =>
      simp [List.mem_filter, h, ha]
  refine ⟨rfl, rfl, hlen clients, fun hok => ?_, hremove, fun c hc => ?_⟩
  · constructor
    · rw [List.filter_eq_self.mpr hok]
    · rw [List.filter_eq_nil_iff]
      intro a ha
      simp [hok a ha]
  · rw [hremove]
    rw [List.mem_filter] at hc
    intro hmem
    rw [List.mem_filter] at hmem
    have := hc.2
    rw [hmem.2] at this
    exact absurd this (by simp)

/-- Witness for C1 on a three client registry where the write to client
two fails. -/
theorem C1_broadcast_accounting_witness :
    (([1, 2, 3] : List Nat).Nodup ∧
      broadcast_pass [1, 2, 3] (fun c => c ≠ 2) = (2, [2])) ∧
    2 + ([2] : List Nat).length = ([1, 2, 3] : List Nat).length :=
  ⟨⟨by decide, by decide⟩,
    (C1_broadcast_accounting [1, 2, 3] (fun c => c ≠ 2) 2 [2]
      (by decide) (by decide)).2.2.1⟩

end HospitalAlarm
